import Mathlib

/-!
# Verification of the Chrome SNSS session decoder (`open_tab_tracker`)

Shallow embedding of `src/open_tab_tracker/ChromeSession.py` (the SNSS
binary-log decoder and tab-state reconstructor) and of the tab-count
consumer in `src/open_tab_tracker/browsers/Chrome.py`.

Modelling conventions:
* A byte stream is a `List Nat` (each element is one byte value).
* A Python `str` is modelled as a `List Nat` of its Unicode code points.
  `bytes.decode('utf-8')` is modelled by a faithful strict UTF-8 decoder
  (`utf8Decode`); the UTF-16 path of `read_string16` builds code points
  directly from the 16-bit units, exactly as the Python code does with
  `chr`, so lone surrogates pass through verbatim.
* Python exceptions are modelled with `Except Err`: `struct.error` from a
  short `struct.unpack` is `Err.structError`, the explicit
  `Exception("Failed to read string")` in `read_string16` is
  `Err.stringLen`, `UnicodeDecodeError` is `Err.decodeError`, and the two
  `ValueError`s of `parse` are `Err.badMagic` / `Err.badVersion`.
* Python dicts (insertion-ordered) are association lists; an upsert of a
  new key appends at the end, an update of an existing key keeps its slot.
* The record-reading `while` loop of `parse` consumes a variable number of
  bytes per iteration, so it is written with an explicit fuel parameter
  (`parseRecords`); `parseRun` supplies fuel larger than the input length,
  which is always sufficient because every iteration consumes input.
-/

namespace OTT

/-- A Python string, as the list of its Unicode code points. -/
abbrev Str := List Nat

/-- The error outcomes of the decoder (Python exception kinds). -/
inductive Err where
  | badMagic
  | badVersion
  | structError
  | stringLen
  | decodeError
deriving DecidableEq, Repr

/-- `Group` dataclass: 128-bit group id as a (high, low) pair plus a name. -/
structure Group where
  high : Nat
  low : Nat
  name : Str := []
deriving DecidableEq, Repr

/-- `HistoryItem` dataclass. -/
structure HistoryItem where
  idx : Nat
  url : Str := []
  title : Str := []
deriving DecidableEq, Repr

/-- `Tab` dataclass.  `group` holds the lookup key of the bound group in
the group table (the Python code stores a shared reference to the `Group`
object that lives in the `groups` dict under exactly that key). -/
structure Tab where
  id : Nat
  history : List HistoryItem
  idx : Nat := 0
  win : Nat := 0
  deleted : Bool := false
  current_history_idx : Nat := 0
  group : Option (List Nat) := none
deriving DecidableEq, Repr

/-- `Window` dataclass (its `tabs` list is only populated at
materialization, so it is not part of the replay state). -/
structure Window where
  id : Nat
  active_tab_idx : Nat := 0
  deleted : Bool := false
deriving DecidableEq, Repr

/-- `ResultHistoryItem` dataclass. -/
structure ResultHistoryItem where
  url : Str
  title : Str
deriving DecidableEq, Repr

/-- `ResultTab` dataclass. -/
structure ResultTab where
  active : Bool
  history : List ResultHistoryItem
  url : Str
  title : Str
  deleted : Bool
  group : Str
deriving DecidableEq, Repr

/-- `ResultWindow` dataclass. -/
structure ResultWindow where
  tabs : List ResultTab
  active : Bool
  deleted : Bool
deriving DecidableEq, Repr

/-- `Result` dataclass. -/
structure Result where
  windows : List ResultWindow
deriving DecidableEq, Repr

/-! ## Primitive reader (§4.A, `read_uint*`, `read_string`, `read_string16`)

Each primitive takes the not-yet-consumed bytes and returns the value
together with the remaining bytes.  A `BytesIO.read(n)` returns at most
`n` bytes; `struct.unpack` then raises `struct.error` when it got fewer
bytes than the format needs, which is why each fixed-width read fails
exactly when the buffer holds fewer bytes than the width. -/

/-- `read_uint8`. -/
def rdU8 : List Nat → Except Err (Nat × List Nat)
  | b :: l => .ok (b, l)
  | _ => .error .structError

/-- `read_uint16` (little-endian). -/
def rdU16 : List Nat → Except Err (Nat × List Nat)
  | b0 :: b1 :: l => .ok (b0 + 256 * b1, l)
  | _ => .error .structError

/-- `read_uint32` (little-endian). -/
def rdU32 : List Nat → Except Err (Nat × List Nat)
  | b0 :: b1 :: b2 :: b3 :: l =>
      .ok (b0 + 256 * b1 + 65536 * b2 + 16777216 * b3, l)
  | _ => .error .structError

/-- `read_uint64` (little-endian). -/
def rdU64 : List Nat → Except Err (Nat × List Nat)
  | b0 :: b1 :: b2 :: b3 :: b4 :: b5 :: b6 :: b7 :: l =>
      .ok (b0 + 256 * b1 + 65536 * b2 + 16777216 * b3 +
           4294967296 * b4 + 1099511627776 * b5 +
           281474976710656 * b6 + 72057594037927936 * b7, l)
  | _ => .error .structError

/-- The 4-byte alignment of `read_string` / `read_string16`:
`if read_size % 4 != 0: read_size += 4 - (read_size % 4)`. -/
def alignSize (n : Nat) : Nat :=
  if n % 4 = 0 then n else n + (4 - n % 4)

/-- Strict UTF-8 decoding of a byte list into code points, as CPython's
`bytes.decode('utf-8')`: rejects continuation-byte leads, overlong forms,
surrogates and values above `0x10FFFF`. -/
def utf8Decode : List Nat → Option (List Nat)
  | [] => some []
  | b :: l =>
    if b ≤ 0x7F then
      (utf8Decode l).map (b :: ·)
    else if b < 0xC2 then
      none
    else if b ≤ 0xDF then
      match l with
      | b1 :: l' =>
        if 0x80 ≤ b1 ∧ b1 ≤ 0xBF then
          (utf8Decode l').map (((b - 0xC0) * 0x40 + (b1 - 0x80)) :: ·)
        else none
      | _ => none
    else if b ≤ 0xEF then
      match l with
      | b1 :: b2 :: l' =>
        let lo1 := if b = 0xE0 then 0xA0 else 0x80
        let hi1 := if b = 0xED then 0x9F else 0xBF
        if lo1 ≤ b1 ∧ b1 ≤ hi1 ∧ 0x80 ≤ b2 ∧ b2 ≤ 0xBF then
          (utf8Decode l').map
            (((b - 0xE0) * 0x1000 + (b1 - 0x80) * 0x40 + (b2 - 0x80)) :: ·)
        else none
      | _ => none
    else if b ≤ 0xF4 then
      match l with
      | b1 :: b2 :: b3 :: l' =>
        let lo1 := if b = 0xF0 then 0x90 else 0x80
        let hi1 := if b = 0xF4 then 0x8F else 0xBF
        if lo1 ≤ b1 ∧ b1 ≤ hi1 ∧ 0x80 ≤ b2 ∧ b2 ≤ 0xBF ∧
            0x80 ≤ b3 ∧ b3 ≤ 0xBF then
          (utf8Decode l').map
            (((b - 0xF0) * 0x40000 + (b1 - 0x80) * 0x1000 +
              (b2 - 0x80) * 0x40 + (b3 - 0x80)) :: ·)
        else none
      | _ => none
    else none

/-- `read_string`: a `u32` size, then the 4-byte aligned payload, of which
the first `size` bytes are decoded as UTF-8.  Note the Python code does
*not* check that `reader.read(read_size)` returned `read_size` bytes: a
short buffer is silently truncated. -/
def rdString (l : List Nat) : Except Err (Str × List Nat) :=
  match rdU32 l with
  | .error e => .error e
  | .ok (size, l1) =>
    let readSize := alignSize size
    let data := l1.take readSize
    match utf8Decode (data.take size) with
    | some cps => .ok (cps, l1.drop readSize)
    | none => .error .decodeError

/-- The 16-bit units `data[i+1] << 8 | data[i]` of `read_string16`. -/
def pairUnits : List Nat → List Nat
  | a :: b :: t => (256 * b + a) :: pairUnits t
  | _ => []

/-- `read_string16`: a `u32` unit count, then the 4-byte aligned payload;
unlike `read_string` it *does* check the byte count and raises
`Exception("Failed to read string")` on a short buffer.  The resulting
Python `str` is the unit list verbatim (built with `chr`). -/
def rdString16 (l : List Nat) : Except Err (Str × List Nat) :=
  match rdU32 l with
  | .error e => .error e
  | .ok (size, l1) =>
    let readSize := alignSize (size * 2)
    let data := l1.take readSize
    if data.length ≠ readSize then .error .stringLen
    else .ok (pairUnits (data.take (size * 2)), l1.drop readSize)

/-! ## State store (§4.D, the dicts of `parse` and `get_tab` / `get_window`
/ `get_group`) -/

/-- Digits of `n` in base 16, most significant first — `f"{n:x}"` as the
list of digit values (lowercase hex is a bijective image of this list). -/
def hexDigitsAux : Nat → Nat → List Nat
  | 0, _ => []
  | f + 1, n => if n = 0 then [] else hexDigitsAux f (n / 16) ++ [n % 16]

/-- `f"{n:x}"`: unpadded lowercase hex digits of `n`. -/
def hexDigits (n : Nat) : List Nat :=
  if n = 0 then [0] else hexDigitsAux (n + 1) n

/-- The group lookup key `f"{high:x}{low:x}"` of `get_group`. -/
def groupKey (high low : Nat) : List Nat :=
  hexDigits high ++ hexDigits low

/-- The replay state: the `tabs` / `windows` / `groups` dicts (as
insertion-ordered association lists) and the `active_window` reference
(window ids are unique in the dict, so a reference to a window object is
faithfully a window id). -/
structure Store where
  tabs : List (Nat × Tab) := []
  windows : List (Nat × Window) := []
  groups : List (List Nat × Group) := []
  active_window : Option Nat := none
deriving DecidableEq, Repr

/-- The empty state at the start of `parse`. -/
def initStore : Store := {}

/-- `get_group(high, low)`: look the key up, creating the entry on first
reference; returns the resolved entity together with the updated table. -/
def getGroup (gs : List (List Nat × Group)) (high low : Nat) :
    Group × List (List Nat × Group) :=
  let k := groupKey high low
  match gs.lookup k with
  | some g => (g, gs)
  | none => (⟨high, low, []⟩, gs ++ [(k, ⟨high, low, []⟩)])

/-- `get_tab(id)` followed by a field update `f` on the returned tab. -/
def updTab (st : Store) (id : Nat) (f : Tab → Tab) : Store :=
  if st.tabs.any (fun p => p.1 == id) then
    { st with tabs := st.tabs.map (fun p => if p.1 == id then (p.1, f p.2) else p) }
  else
    { st with tabs := st.tabs ++ [(id, f { id := id, history := [] })] }

/-- `get_window(id)` followed by a field update `f` on the returned window. -/
def updWindow (st : Store) (id : Nat) (f : Window → Window) : Store :=
  if st.windows.any (fun p => p.1 == id) then
    { st with windows := st.windows.map (fun p => if p.1 == id then (p.1, f p.2) else p) }
  else
    { st with windows := st.windows ++ [(id, f { id := id })] }

/-- `get_window(id)` for its side effect only (ensure presence). -/
def ensureWindow (ws : List (Nat × Window)) (id : Nat) : List (Nat × Window) :=
  if ws.any (fun p => p.1 == id) then ws else ws ++ [(id, { id := id })]

/-- `get_group(high, low).name = name` of the `SetTabGroupMetadata2`
handler: resolve (creating on first reference), then set the name on the
shared entity. -/
def setGroupName (gs : List (List Nat × Group)) (high low : Nat) (name : Str) :
    List (List Nat × Group) :=
  let k := groupKey high low
  let gs1 := (getGroup gs high low).2
  gs1.map (fun p => if p.1 == k then (p.1, { p.2 with name := name }) else p)

/-- The history upsert of `UpdateTabNavigation`: the first item with the
given index is overwritten; if none exists a fresh item is appended. -/
def setHist : List HistoryItem → Nat → Str → Str → List HistoryItem
  | [], i, u, t => [⟨i, u, t⟩]
  | h :: l, i, u, t =>
    if h.idx == i then { h with url := u, title := t } :: l
    else h :: setHist l i u t

/-! ## Command dispatcher (§4.C, the `if cmd_type ==` chain of `parse`) -/

/-- One command applied to the replay state.  `d` is the record-local
payload buffer (`io.BytesIO(fh.read(size))`); all field reads happen
before any state mutation, exactly as in the Python handlers.  Unknown
opcodes (and opcode 21, which has no handler branch) leave the state
unchanged. -/
def applyCommand (c : Nat) (d : List Nat) (st : Store) : Except Err Store :=
  if c = 6 then
    -- UpdateTabNavigation
    match rdU32 d with
    | .error e => .error e
    | .ok (_, d) =>
    match rdU32 d with
    | .error e => .error e
    | .ok (id, d) =>
    match rdU32 d with
    | .error e => .error e
    | .ok (histIdx, d) =>
    match rdString d with
    | .error e => .error e
    | .ok (url, d) =>
    match rdString16 d with
    | .error e => .error e
    | .ok (title, _) =>
      .ok (updTab st id (fun t =>
        { t with history := setHist t.history histIdx url title }))
  else if c = 8 then
    -- SetSelectedTabInIndex
    match rdU32 d with
    | .error e => .error e
    | .ok (id, d) =>
    match rdU32 d with
    | .error e => .error e
    | .ok (idx, _) =>
      .ok (updWindow st id (fun w => { w with active_tab_idx := idx }))
  else if c = 27 then
    -- SetTabGroupMetadata2
    match rdU32 d with
    | .error e => .error e
    | .ok (_, d) =>
    match rdU64 d with
    | .error e => .error e
    | .ok (high, d) =>
    match rdU64 d with
    | .error e => .error e
    | .ok (low, d) =>
    match rdString16 d with
    | .error e => .error e
    | .ok (name, _) =>
      .ok { st with groups := setGroupName st.groups high low name }
  else if c = 25 then
    -- SetTabGroup
    match rdU32 d with
    | .error e => .error e
    | .ok (id, d) =>
    match rdU32 d with
    | .error e => .error e
    | .ok (_, d) =>
    match rdU64 d with
    | .error e => .error e
    | .ok (high, d) =>
    match rdU64 d with
    | .error e => .error e
    | .ok (low, _) =>
      .ok (updTab { st with groups := (getGroup st.groups high low).2 } id
        (fun t => { t with group := some (groupKey high low) }))
  else if c = 0 then
    -- SetTabWindow
    match rdU32 d with
    | .error e => .error e
    | .ok (win, d) =>
    match rdU32 d with
    | .error e => .error e
    | .ok (id, _) =>
      .ok (updTab st id (fun t => { t with win := win }))
  else if c = 17 then
    -- WindowClosed
    match rdU32 d with
    | .error e => .error e
    | .ok (id, _) =>
      .ok (updWindow st id (fun w => { w with deleted := true }))
  else if c = 16 then
    -- TabClosed
    match rdU32 d with
    | .error e => .error e
    | .ok (id, _) =>
      .ok (updTab st id (fun t => { t with deleted := true }))
  else if c = 2 then
    -- SetTabIndexInWindow
    match rdU32 d with
    | .error e => .error e
    | .ok (id, d) =>
    match rdU32 d with
    | .error e => .error e
    | .ok (index, _) =>
      .ok (updTab st id (fun t => { t with idx := index }))
  else if c = 20 then
    -- SetActiveWindow
    match rdU32 d with
    | .error e => .error e
    | .ok (id, _) =>
      .ok { st with windows := ensureWindow st.windows id,
                    active_window := some id }
  else if c = 7 then
    -- SetSelectedNavigationIndex
    match rdU32 d with
    | .error e => .error e
    | .ok (id, d) =>
    match rdU32 d with
    | .error e => .error e
    | .ok (idx, _) =>
      .ok (updTab st id (fun t => { t with current_history_idx := idx }))
  else
    .ok st

/-! ## Frame splitter and record loop (§4.B, the `while True` of `parse`) -/

/-- `fh.read(n)` for a possibly negative `n` (Python's `size - 1` is a
plain `int`): a negative count reads the whole remainder, otherwise up to
`n` bytes; returns the bytes read and the rest of the stream. -/
def readBytes (n : Int) (l : List Nat) : List Nat × List Nat :=
  if n < 0 then (l, [])
  else (l.take n.toNat, l.drop n.toNat)

/-- The declared payload length `struct.unpack('<H', cmd_data)[0] - 1`
of a record whose size-field bytes are `b0 b1` — a Python `int`, so it is
`-1` when the size field is zero. -/
def payloadLen (b0 b1 : Nat) : Int :=
  ((b0 + 256 * b1 : Nat) : Int) - 1

/-- The record loop of `parse`, with explicit fuel.  Per iteration:
read 2 size bytes (fewer than 2 is clean EOF), read the type byte
(`struct.error` at EOF), read the payload with `fh.read(size)` (which
simply returns what is available), dispatch, repeat. -/
def parseRecords : Nat → List Nat → Store → Except Err Store
  | 0, _, st => .ok st
  | _ + 1, [], st => .ok st
  | _ + 1, [_], st => .ok st
  | _ + 1, _ :: _ :: [], _ => .error .structError
  | f + 1, b0 :: b1 :: c :: r, st =>
    let pr := readBytes (payloadLen b0 b1) r
    match applyCommand c pr.1 st with
    | .error e => .error e
    | .ok st' => parseRecords f pr.2 st'

/-- The record loop with always-sufficient fuel. -/
def parseRun (input : List Nat) (st : Store) : Except Err Store :=
  parseRecords (input.length + 1) input st

/-! ## Materializer (§4.E, the code after the loop in `parse`) -/

/-- Stable insertion by a `Nat` key: the element goes in front of the
first list element whose key is not smaller.  `sortByKey` below is
therefore a stable sort, which is what Python's `list.sort(key=...)`
guarantees, so they agree as functions. -/
def insertByKey (key : α → Nat) (a : α) : List α → List α
  | [] => [a]
  | b :: l => if key a ≤ key b then a :: b :: l else b :: insertByKey key a l

/-- Stable sort by a `Nat` key (the model of `list.sort(key=...)`). -/
def sortByKey (key : α → Nat) : List α → List α
  | [] => []
  | a :: l => insertByKey key a (sortByKey key l)

/-- The per-tab history emission loop: append each (sorted) history item,
and stop right after the first one whose index equals
`current_history_idx`, recording its url and title. -/
def emitHistory : List HistoryItem → Nat → List ResultHistoryItem × Str × Str
  | [], _ => ([], [], [])
  | h :: l, cur =>
    if h.idx == cur then ([⟨h.url, h.title⟩], h.url, h.title)
    else
      let rest := emitHistory l cur
      (⟨h.url, h.title⟩ :: rest.1, rest.2.1, rest.2.2)

/-- Build one `ResultTab` from a tab (whose history has already been
sorted) and its computed `active` flag; the group name is resolved
through the group table. -/
def mkResultTab (groups : List (List Nat × Group)) (act : Bool) (t : Tab) :
    ResultTab :=
  let gname : Str :=
    match t.group with
    | some k => match groups.lookup k with
                | some g => g.name
                | none => []
    | none => []
  let e := emitHistory t.history t.current_history_idx
  ⟨act, e.1, e.2.1, e.2.2, t.deleted, gname⟩

/-- The per-window tab emission loop: `active = (idx == active_tab_idx)`
with the counter `idx` incremented only after a non-deleted tab. -/
def emitTabs (groups : List (List Nat × Group)) (aIdx : Nat) :
    List Tab → Nat → List ResultTab
  | [], _ => []
  | t :: ts, c =>
    mkResultTab groups (c == aIdx) t ::
      emitTabs groups aIdx ts (if t.deleted then c else c + 1)

/-- First materializer pass over the tabs dict: sort each tab's history
ascending by index. -/
def sortHistTabs (ts : List (Nat × Tab)) : List (Nat × Tab) :=
  ts.map (fun p => (p.1, { p.2 with history := sortByKey HistoryItem.idx p.2.history }))

/-- The tab list of one window: the tabs (in tabs-dict order) whose `win`
field names the window, sorted stably ascending by `idx`. -/
def materializeWindowTabs (tabs' : List (Nat × Tab)) (wid : Nat) : List Tab :=
  sortByKey Tab.idx ((tabs'.filter (fun q => q.2.win == wid)).map Prod.snd)

/-- The materializer: sort histories, place every tab into its window
(creating a window on first reference, appended in order), sort each
window's tabs, and emit the result windows in windows-dict order. -/
def materialize (st : Store) : Result :=
  let tabs' := sortHistTabs st.tabs
  let windows' := tabs'.foldl (fun ws p => ensureWindow ws p.2.win) st.windows
  ⟨windows'.map (fun p =>
    ⟨emitTabs st.groups p.2.active_tab_idx (materializeWindowTabs tabs' p.1) 0,
     decide (st.active_window = some p.1),
     p.2.deleted⟩)⟩

/-- The `"SNSS"` magic bytes. -/
def snssMagic : List Nat := [83, 78, 83, 83]

/-- `parse`: check the magic, read and check the version, run the record
loop from the empty store, then materialize. -/
def parse (input : List Nat) : Except Err Result :=
  if input.take 4 ≠ snssMagic then .error .badMagic
  else
    match rdU32 (input.drop 4) with
    | .error e => .error e
    | .ok (v, body) =>
      if v = 1 ∨ v = 3 then
        match parseRun body initStore with
        | .error e => .error e
        | .ok st => .ok (materialize st)
      else .error .badVersion

/-! ## Tab-count consumer (`browsers/Chrome.py`, `get_tab_count`) -/

/-- The counting loop of `Chrome.get_tab_count`: over non-deleted
windows, count non-deleted tabs. -/
def countLoop (data : Result) : Nat :=
  data.windows.foldl
    (fun acc w =>
      if w.deleted then acc
      else w.tabs.foldl (fun a t => if t.deleted then a else a + 1) acc)
    0

/-- `Chrome.get_tab_count`: session discovery and parsing are folded into
the `Except`-valued argument (any exception on that path is an `.error`);
an error reports zero, otherwise the counting loop runs. -/
def chromeTabCount (sessionData : Except Err Result) : Nat :=
  match sessionData with
  | .error _ => 0
  | .ok data => countLoop data

end OTT

namespace OTT

/-! ## Infrastructure lemmas about the record loop -/

theorem parseRecords_cons (f b0 b1 c : Nat) (r : List Nat) (st : Store) :
    parseRecords (f + 1) (b0 :: b1 :: c :: r) st =
      match applyCommand c (readBytes (payloadLen b0 b1) r).1 st with
      | .error e => .error e
      | .ok st' => parseRecords f (readBytes (payloadLen b0 b1) r).2 st' := rfl

theorem readBytes_snd_length_le (n : Int) (l : List Nat) :
    ((readBytes n l).2).length ≤ l.length := by
  unfold readBytes
  split
  · simp
  · simp

theorem readBytes_all (n : Int) (l : List Nat) (h : (l.length : Int) ≤ n) :
    readBytes n l = (l, []) := by
  unfold readBytes
  split
  · rfl
  · have hn : l.length ≤ n.toNat := by omega
    rw [List.take_of_length_le hn, List.drop_eq_nil_of_le hn]

theorem parseRecords_fuel :
    ∀ (f₁ f₂ : Nat) (input : List Nat) (st : Store),
      input.length < f₁ → input.length < f₂ →
      parseRecords f₁ input st = parseRecords f₂ input st := by
  intro f₁
  induction f₁ with
  | zero => intro f₂ input st h₁ _; exact absurd h₁ (Nat.not_lt_zero _)
  | succ f ih =>
    intro f₂ input st h₁ h₂
    cases f₂ with
    | zero => exact absurd h₂ (Nat.not_lt_zero _)
    | succ f₂' =>
      rcases input with _ | ⟨b0, _ | ⟨b1, _ | ⟨c, r⟩⟩⟩
      · rfl
      · rfl
      · rfl
      · rw [parseRecords_cons, parseRecords_cons]
        have hr : r.length + 3 = (b0 :: b1 :: c :: r).length := by simp
        have hs := readBytes_snd_length_le (payloadLen b0 b1) r
        cases happ : applyCommand c (readBytes (payloadLen b0 b1) r).1 st with
        | error e => rfl
        | ok st' => exact ih f₂' _ st' (by omega) (by omega)

theorem parseRun_cons (b0 b1 c : Nat) (r : List Nat) (st : Store) :
    parseRun (b0 :: b1 :: c :: r) st =
      match applyCommand c (readBytes (payloadLen b0 b1) r).1 st with
      | .error e => .error e
      | .ok st' => parseRun (readBytes (payloadLen b0 b1) r).2 st' := by
  unfold parseRun
  rw [parseRecords_cons]
  have hs := readBytes_snd_length_le (payloadLen b0 b1) r
  cases happ : applyCommand c (readBytes (payloadLen b0 b1) r).1 st with
  | error e => rfl
  | ok st' =>
    exact parseRecords_fuel _ _ _ st' (by simp; omega) (by omega)

theorem parseRun_last (b0 b1 c : Nat) (r : List Nat) (st : Store)
    (h : readBytes (payloadLen b0 b1) r = (r, [])) :
    parseRun (b0 :: b1 :: c :: r) st = applyCommand c r st := by
  rw [parseRun_cons, h]
  cases applyCommand c r st <;> rfl

end OTT

namespace OTT

/-! ## Well-formed records (for the unknown-opcode tolerance claim) -/

/-- Little-endian `u16` encoding of `n` (`n < 65536`). -/
def encU16 (n : Nat) : List Nat := [n % 256, n / 256]

/-- A well-formed record: a `u16` total size `payload.length + 1`
(the type byte is included in the size), the command type byte, and the
payload. -/
def encRecord (c : Nat) (payload : List Nat) : List Nat :=
  encU16 (payload.length + 1) ++ c :: payload

/-- A byte string that is a concatenation of well-formed records. -/
inductive RecordSeq : List Nat → Prop where
  | nil : RecordSeq []
  | cons (c : Nat) (payload rest : List Nat)
      (hlen : payload.length + 1 ≤ 65535) (h : RecordSeq rest) :
      RecordSeq (encRecord c payload ++ rest)

theorem payloadLen_encU16 (n : Nat) :
    payloadLen (n % 256) (n / 256) = (n : Int) - 1 := by
  unfold payloadLen
  have h : n % 256 + 256 * (n / 256) = n := by omega
  rw [h]

theorem readBytes_append (payload rest : List Nat) :
    readBytes ((payload.length : Nat) : Int) (payload ++ rest) = (payload, rest) := by
  unfold readBytes
  have h0 : ¬ ((payload.length : Nat) : Int) < 0 := by omega
  rw [if_neg h0]
  have ht : ((payload.length : Nat) : Int).toNat = payload.length := rfl
  rw [ht, List.take_left, List.drop_left]

theorem parseRun_record (c : Nat) (payload rest : List Nat) (st : Store) :
    parseRun (encRecord c payload ++ rest) st =
      match applyCommand c payload st with
      | .error e => .error e
      | .ok st' => parseRun rest st' := by
  have hshape : encRecord c payload ++ rest =
      (payload.length + 1) % 256 :: (payload.length + 1) / 256 :: c ::
        (payload ++ rest) := by
    simp [encRecord, encU16]
  rw [hshape, parseRun_cons]
  have hlen : payloadLen ((payload.length + 1) % 256) ((payload.length + 1) / 256)
      = ((payload.length : Nat) : Int) := by
    rw [payloadLen_encU16]; omega
  rw [hlen, readBytes_append]

theorem applyCommand_unknown (d : List Nat) (st : Store) :
    applyCommand 200 d st = .ok st := rfl

theorem parseRun_append_recordSeq {pre : List Nat} (hpre : RecordSeq pre) :
    ∀ (x : List Nat) (st : Store),
      parseRun (pre ++ x) st =
        match parseRun pre st with
        | .error e => .error e
        | .ok st' => parseRun x st' := by
  induction hpre with
  | nil =>
    intro x st
    have h : parseRun [] st = .ok st := rfl
    rw [List.nil_append, h]
  | cons c payload rest hlen hrs ih =>
    intro x st
    rw [List.append_assoc, parseRun_record, parseRun_record]
    cases applyCommand c payload st with
    | error e => rfl
    | ok st' =>
      dsimp only
      exact ih x st'

/-! ## The stable sort and its properties -/

theorem mem_insertByKey (key : α → Nat) (a x : α) (l : List α) :
    x ∈ insertByKey key a l ↔ x = a ∨ x ∈ l := by
  induction l with
  | nil => simp [insertByKey]
  | cons b l ih =>
    unfold insertByKey
    split
    · simp [List.mem_cons]
    · simp only [List.mem_cons, ih]
      tauto

theorem pairwise_insertByKey (key : α → Nat) (a : α) (l : List α)
    (h : List.Pairwise (fun x y => key x ≤ key y) l) :
    List.Pairwise (fun x y => key x ≤ key y) (insertByKey key a l) := by
  induction l with
  | nil => simp [insertByKey]
  | cons b l ih =>
    rcases List.pairwise_cons.mp h with ⟨hb, hl⟩
    unfold insertByKey
    split
    · refine List.pairwise_cons.mpr ⟨?_, h⟩
      intro x hx
      rcases List.mem_cons.mp hx with rfl | hx
      · assumption
      · exact Nat.le_trans (by assumption) (hb x hx)
    · refine List.pairwise_cons.mpr ⟨?_, ih hl⟩
      intro x hx
      rcases (mem_insertByKey key a x l).mp hx with rfl | hx
      · omega
      · exact hb x hx

theorem pairwise_sortByKey (key : α → Nat) (l : List α) :
    List.Pairwise (fun x y => key x ≤ key y) (sortByKey key l) := by
  induction l with
  | nil => simp [sortByKey]
  | cons a l ih => exact pairwise_insertByKey key a _ ih

theorem filter_insertByKey (key : α → Nat) (k : Nat) (a : α) (l : List α) :
    (insertByKey key a l).filter (fun x => key x == k) =
      if key a = k then a :: l.filter (fun x => key x == k)
      else l.filter (fun x => key x == k) := by
  induction l with
  | nil =>
    by_cases hk : key a = k <;> simp [insertByKey, List.filter_cons, hk]
  | cons b l ih =>
    unfold insertByKey
    split
    · by_cases hk : key a = k <;> simp [List.filter_cons, hk]
    · have hba : key b < key a := by omega
      by_cases hk : key a = k
      · have hbk : key b ≠ k := by omega
        simp [List.filter_cons, ih, hk, hbk]
      · simp [List.filter_cons, ih, hk]

theorem filter_sortByKey (key : α → Nat) (k : Nat) (l : List α) :
    (sortByKey key l).filter (fun x => key x == k) =
      l.filter (fun x => key x == k) := by
  induction l with
  | nil => rfl
  | cons a l ih =>
    show (insertByKey key a (sortByKey key l)).filter _ = _
    rw [filter_insertByKey]
    by_cases hk : key a = k <;> simp [List.filter_cons, hk, ih]

end OTT

namespace OTT

/-! ## Materializer lemmas -/

/-- History emitted exactly as the spec describes it: everything up to and
including the first entry whose index equals `cur`; everything when no
entry matches. -/
def specEmittedHistory (l : List HistoryItem) (cur : Nat) :
    List ResultHistoryItem :=
  match l.findIdx? (fun h => h.idx == cur) with
  | some k => (l.take (k + 1)).map (fun h => ⟨h.url, h.title⟩)
  | none => l.map (fun h => ⟨h.url, h.title⟩)

/-- The current history entry as the spec describes it: url and title of
the entry whose index equals `cur`, empty strings when none matches. -/
def specCurrentEntry (l : List HistoryItem) (cur : Nat) : Str × Str :=
  match l.find? (fun h => h.idx == cur) with
  | some h => (h.url, h.title)
  | none => ([], [])

theorem emitHistory_eq_spec (l : List HistoryItem) (cur : Nat) :
    emitHistory l cur = (specEmittedHistory l cur, specCurrentEntry l cur) := by
  induction l with
  | nil => rfl
  | cons h l ih =>
    by_cases hp : h.idx = cur
    · simp [emitHistory, specEmittedHistory, specCurrentEntry, hp,
        List.findIdx?_cons]
    · have hpb : (h.idx == cur) = false := by simp [hp]
      unfold emitHistory
      rw [hpb]
      unfold specEmittedHistory specCurrentEntry
      rw [List.findIdx?_cons, hpb, List.find?_cons_of_neg _ (by simp [hp])]
      simp only [cond_false, List.findIdx?_succ]
      unfold specEmittedHistory specCurrentEntry at ih
      cases hfi : l.findIdx? (fun h => h.idx == cur) with
      | none =>
        rw [hfi] at ih
        cases hf : l.find? (fun h => h.idx == cur) with
        | none => rw [hf] at ih; simp [ih, Option.map_none]
        | some hh => rw [hf] at ih; simp [ih, Option.map_none]
      | some k =>
        rw [hfi] at ih
        cases hf : l.find? (fun h => h.idx == cur) with
        | none => rw [hf] at ih; simp [ih, List.take_succ_cons]
        | some hh => rw [hf] at ih; simp [ih, List.take_succ_cons]

/-- The number of emitted result tabs equals the number of tabs. -/
theorem emitTabs_length (groups : List (List Nat × Group)) (aIdx : Nat) :
    ∀ (ts : List Tab) (c : Nat), (emitTabs groups aIdx ts c).length = ts.length := by
  intro ts
  induction ts with
  | nil => intro c; rfl
  | cons t ts ih => intro c; simp [emitTabs, ih]

theorem mkResultTab_active (groups : List (List Nat × Group)) (act : Bool)
    (t : Tab) : (mkResultTab groups act t).active = act := rfl

theorem mkResultTab_deleted (groups : List (List Nat × Group)) (act : Bool)
    (t : Tab) : (mkResultTab groups act t).deleted = t.deleted := rfl

/-- The `active` flag of the `k`-th emitted tab, for an arbitrary initial
value `c` of the visible counter. -/
theorem emitTabs_get_active (groups : List (List Nat × Group)) (aIdx : Nat) :
    ∀ (ts : List Tab) (c k : Nat) (h : k < (emitTabs groups aIdx ts c).length),
      ((emitTabs groups aIdx ts c).get ⟨k, h⟩).active
        = ((c + List.countP (fun t => !t.deleted) (ts.take k)) == aIdx) := by
  intro ts
  induction ts with
  | nil => intro c k h; simp [emitTabs] at h
  | cons t ts ih =>
    intro c k h
    cases k with
    | zero => simp [emitTabs, mkResultTab_active]
    | succ k =>
      have h' : k < (emitTabs groups aIdx ts (if t.deleted then c else c + 1)).length := by
        have := h
        simp [emitTabs, emitTabs_length] at this ⊢
        omega
      have hg : ((emitTabs groups aIdx (t :: ts) c).get ⟨k + 1, h⟩)
          = ((emitTabs groups aIdx ts (if t.deleted then c else c + 1)).get ⟨k, h'⟩) := rfl
      rw [hg, ih]
      have harith : (if t.deleted then c else c + 1)
            + List.countP (fun t => !t.deleted) (ts.take k)
          = c + List.countP (fun t => !t.deleted) ((t :: ts).take (k + 1)) := by
        rw [List.take_succ_cons, List.countP_cons]
        by_cases hd : t.deleted
        · simp [hd]
        · simp [hd]; omega
      rw [harith]

/-- Once the visible counter has passed the window's active index, no
later emitted tab is active. -/
theorem emitTabs_active_false_of_gt (groups : List (List Nat × Group))
    (aIdx : Nat) :
    ∀ (ts : List Tab) (c : Nat), aIdx < c →
      ∀ rt ∈ emitTabs groups aIdx ts c, rt.active = false := by
  intro ts
  induction ts with
  | nil => intro c _ rt hrt; simp [emitTabs] at hrt
  | cons t ts ih =>
    intro c hc rt hrt
    rcases List.mem_cons.mp hrt with rfl | hrt
    · rw [mkResultTab_active]
      simp only [beq_eq_false_iff_ne, ne_eq]
      omega
    · exact ih _ (by split <;> omega) rt hrt

end OTT

namespace OTT

/-- Among the emitted tabs of one window, at most one non-deleted tab
carries `active = true` (the visible counter strictly increases over
non-deleted tabs). -/
theorem emitTabs_visible_active_le_one (groups : List (List Nat × Group))
    (aIdx : Nat) :
    ∀ (ts : List Tab) (c : Nat),
      List.countP (fun rt => rt.active && !rt.deleted)
        (emitTabs groups aIdx ts c) ≤ 1 := by
  intro ts
  induction ts with
  | nil => intro c; simp [emitTabs]
  | cons t ts ih =>
    intro c
    have hunf : emitTabs groups aIdx (t :: ts) c
        = mkResultTab groups (c == aIdx) t ::
            emitTabs groups aIdx ts (if t.deleted then c else c + 1) := rfl
    rw [hunf, List.countP_cons]
    by_cases hca : c = aIdx
    · by_cases hd : t.deleted
      · have hh : ((mkResultTab groups (c == aIdx) t).active &&
            !(mkResultTab groups (c == aIdx) t).deleted) = false := by
          rw [mkResultTab_active, mkResultTab_deleted, hd]
          simp
        rw [hh]
        simpa [hd] using ih c
      · have htail : List.countP (fun rt => rt.active && !rt.deleted)
            (emitTabs groups aIdx ts (if t.deleted then c else c + 1)) = 0 := by
          refine List.countP_eq_zero.mpr ?_
          intro rt hrt
          have hact : rt.active = false := by
            refine emitTabs_active_false_of_gt groups aIdx ts _ ?_ rt hrt
            rw [if_neg hd]
            omega
          simp [hact]
        rw [htail]
        split <;> omega
    · have hh : ((mkResultTab groups (c == aIdx) t).active &&
          !(mkResultTab groups (c == aIdx) t).deleted) = false := by
        rw [mkResultTab_active]
        simp [hca]
      rw [hh]
      simpa using ih (if t.deleted then c else c + 1)

/-! ## Tab-count lemmas -/

theorem foldl_tab_count (l : List ResultTab) :
    ∀ a : Nat,
      l.foldl (fun a t => if t.deleted then a else a + 1) a
        = a + (l.filter (fun t => !t.deleted)).length := by
  induction l with
  | nil => intro a; simp
  | cons t l ih =>
    intro a
    by_cases hd : t.deleted
    · simp [List.foldl_cons, hd, List.filter_cons, ih]
    · simp [List.foldl_cons, hd, List.filter_cons, ih]
      omega

theorem countLoop_eq (r : Result) :
    countLoop r
      = ((r.windows.filter (fun w => !w.deleted)).map
          (fun w => (w.tabs.filter (fun t => !t.deleted)).length)).sum := by
  unfold countLoop
  have aux : ∀ (ws : List ResultWindow) (a : Nat),
      ws.foldl (fun acc w => if w.deleted then acc
          else w.tabs.foldl (fun a t => if t.deleted then a else a + 1) acc) a
        = a + ((ws.filter (fun w => !w.deleted)).map
            (fun w => (w.tabs.filter (fun t => !t.deleted)).length)).sum := by
    intro ws
    induction ws with
    | nil => intro a; simp
    | cons w ws ih =>
      intro a
      rw [List.foldl_cons]
      by_cases hd : w.deleted
      · rw [if_pos hd, ih]
        simp [List.filter_cons, hd]
      · rw [if_neg hd, foldl_tab_count, ih]
        simp [List.filter_cons, hd]
        omega
  have := aux r.windows 0
  omega

/-! ## Group-table lemmas -/

/-- The group table invariant: every entry sits under the key computed
from its own (high, low) pair.  It holds for the empty table and is
preserved by `getGroup`. -/
def WFGroups (gs : List (List Nat × Group)) : Prop :=
  ∀ p ∈ gs, p.1 = groupKey p.2.high p.2.low

theorem lookup_mem :
    ∀ (l : List (List Nat × Group)) (k : List Nat) (v : Group),
      l.lookup k = some v → (k, v) ∈ l := by
  intro l
  induction l with
  | nil => intro k v h; simp [List.lookup] at h
  | cons p l ih =>
    intro k v h
    rcases p with ⟨pk, pv⟩
    by_cases hk : (k == pk) = true
    · simp only [List.lookup, hk] at h
      have hkk : k = pk := by simpa using hk
      have hvv : pv = v := by simpa using h
      rw [hkk, ← hvv]
      exact List.mem_cons_self _ _
    · have hkf : (k == pk) = false := by simpa using hk
      simp only [List.lookup, hkf] at h
      exact List.mem_cons_of_mem _ (ih k v h)

theorem lookup_append_none :
    ∀ (l₁ l₂ : List (List Nat × Group)) (k : List Nat),
      l₁.lookup k = none → (l₁ ++ l₂).lookup k = l₂.lookup k := by
  intro l₁
  induction l₁ with
  | nil => intro l₂ k _; rfl
  | cons p l ih =>
    intro l₂ k h
    rcases p with ⟨pk, pv⟩
    by_cases hk : (k == pk) = true
    · simp only [List.lookup, hk] at h
      simp at h
    · have hkf : (k == pk) = false := by simpa using hk
      simp only [List.cons_append, List.lookup, hkf] at h ⊢
      exact ih l₂ k h

theorem getGroup_fst_of_lookup (gs : List (List Nat × Group)) (h l : Nat)
    (g : Group) (hlu : gs.lookup (groupKey h l) = some g) :
    (getGroup gs h l).1 = g := by
  unfold getGroup
  simp [hlu]

theorem getGroup_key (gs : List (List Nat × Group)) (h l : Nat)
    (hwf : WFGroups gs) :
    groupKey (getGroup gs h l).1.high (getGroup gs h l).1.low
      = groupKey h l := by
  unfold getGroup
  cases hlu : gs.lookup (groupKey h l) with
  | none => simp [hlu]
  | some g =>
    have hm := lookup_mem gs (groupKey h l) g hlu
    have := hwf _ hm
    simp only [hlu]
    exact this.symm

theorem getGroup_wf (gs : List (List Nat × Group)) (h l : Nat)
    (hwf : WFGroups gs) : WFGroups (getGroup gs h l).2 := by
  unfold getGroup
  cases hlu : gs.lookup (groupKey h l) with
  | none =>
    simp only [hlu]
    intro p hp
    rcases List.mem_append.mp hp with hp | hp
    · exact hwf p hp
    · rcases List.mem_singleton.mp hp with rfl
      rfl
  | some g =>
    simp only [hlu]
    exact hwf

theorem getGroup_lookup_self (gs : List (List Nat × Group)) (h l : Nat) :
    ((getGroup gs h l).2).lookup (groupKey h l) = some (getGroup gs h l).1 := by
  unfold getGroup
  cases hlu : gs.lookup (groupKey h l) with
  | none =>
    simp only [hlu]
    rw [lookup_append_none gs _ _ hlu]
    simp [List.lookup]
  | some g =>
    simp only [hlu]

end OTT

namespace OTT

/-! ## Concrete example logs -/

/-- SNSS v1 log: window 1 holds tab 1 (position 0, later closed) and
tab 2 (position 1); `SetSelectedTabInIndex(win=1, idx=0)`. -/
def exLogDeletedActive : List Nat :=
  [83, 78, 83, 83, 1, 0, 0, 0] ++
  [9, 0, 0, 1, 0, 0, 0, 1, 0, 0, 0] ++
  [9, 0, 0, 1, 0, 0, 0, 2, 0, 0, 0] ++
  [9, 0, 2, 1, 0, 0, 0, 0, 0, 0, 0] ++
  [9, 0, 2, 2, 0, 0, 0, 1, 0, 0, 0] ++
  [5, 0, 16, 1, 0, 0, 0] ++
  [9, 0, 8, 1, 0, 0, 0, 0, 0, 0, 0]

/-- SNSS v1 log whose single record declares a 9-byte payload
(size field 10) but ends right after the type byte 200. -/
def exLogTruncatedPayload : List Nat :=
  [83, 78, 83, 83, 1, 0, 0, 0] ++ [10, 0, 200]

/-! ## C1 -/

/-- C1 (counterexample): the claim says a `ResultTab`'s `active` flag is
always `false` when the tab is deleted.  In the materialization of
`exLogDeletedActive` the first emitted tab (the closed tab 1 at visible
counter 0 with `active_tab_idx = 0`) has `active = true` *and*
`deleted = true`, because the code computes
`active = (idx == window.active_tab_idx)` with no deleted-guard. -/
theorem c1_deleted_tab_can_be_active :
    (parse exLogDeletedActive).toOption.map
        (fun r => r.windows.map (fun w => w.tabs.map (fun t => (t.active, t.deleted))))
      = some [[(true, true), (true, false)]] := by decide

/-- C1 (amended): in each materialized window, a `ResultTab`'s `active`
flag equals (visible-counter == `window.active_tab_idx`) for *every* tab,
deleted or not, where the visible counter starts at 0 and is incremented
only after emitting a non-deleted tab. -/
theorem c1_active_eq_visible_counter
    (groups : List (List Nat × Group)) (aIdx : Nat) (ts : List Tab)
    (k : Nat) (h : k < (emitTabs groups aIdx ts 0).length) :
    ((emitTabs groups aIdx ts 0).get ⟨k, h⟩).active
      = (List.countP (fun t => !t.deleted) (ts.take k) == aIdx) := by
  have := emitTabs_get_active groups aIdx ts 0 k h
  simpa using this

/-- C1 witness: the amended statement evaluated on a one-tab window. -/
theorem c1_active_eq_visible_counter_witness :
    ((emitTabs [] 0 [{ id := 1, history := [] }] 0).get ⟨0, by decide⟩).active
      = (List.countP (fun t => !t.deleted)
          (([{ id := 1, history := [] }] : List Tab).take 0) == 0) :=
  c1_active_eq_visible_counter [] 0 [{ id := 1, history := [] }] 0 (by decide)

/-! ## C2 -/

/-- C2 (counterexample): the claim says at most one `ResultTab` per
window has `active == true`; in the materialization of
`exLogDeletedActive` the single window carries two active tabs (the
deleted tab does not advance the visible counter, so the following
non-deleted tab sees the same counter value). -/
theorem c2_two_active_tabs :
    (parse exLogDeletedActive).toOption.map
        (fun r => r.windows.map (fun w => (w.tabs.filter (fun t => t.active)).length))
      = some [2] := by decide

/-- C2 (amended): in each materialized window, at most one *non-deleted*
`ResultTab` has `active == true`. -/
theorem c2_at_most_one_active_visible_tab
    (groups : List (List Nat × Group)) (aIdx : Nat) (ts : List Tab) :
    List.countP (fun rt => rt.active && !rt.deleted)
      (emitTabs groups aIdx ts 0) ≤ 1 :=
  emitTabs_visible_active_le_one groups aIdx ts 0

/-! ## C3 -/

/-- C3 (counterexample): `exLogTruncatedPayload` declares a 9-byte
payload with no bytes remaining — the claim demands a fatal
`TruncatedFrame` error, but `parse` succeeds and produces an (empty)
Result, because `fh.read(size)` silently returns the available bytes. -/
theorem c3_truncated_payload_tolerated :
    parse exLogTruncatedPayload = .ok ⟨[]⟩ ∧ (0 : Int) < payloadLen 10 0 := by
  exact ⟨by rfl, by decide⟩

/-- C3 (amended): a record whose declared payload length exceeds the
remaining bytes is *not* detected at the frame level: the record receives
all remaining bytes as its payload and the loop then terminates as at
clean EOF (the overall parse fails only if that record's own handler
fails on the short payload).  A truncated size header at EOF (0 or 1
byte) is clean termination; EOF at the type byte is a fatal
`struct.error`. -/
theorem c3_truncation_behavior (b0 b1 c : Nat) (r : List Nat) (st : Store) :
    parseRun ([] : List Nat) st = .ok st ∧
    parseRun [b0] st = .ok st ∧
    parseRun [b0, b1] st = .error .structError ∧
    ((r.length : Int) ≤ payloadLen b0 b1 →
      parseRun (b0 :: b1 :: c :: r) st = applyCommand c r st) := by
  refine ⟨rfl, rfl, rfl, fun h => ?_⟩
  exact parseRun_last b0 b1 c r st (readBytes_all _ _ h)

/-- C3 witness: a record declaring 4 payload bytes with only 2 left. -/
theorem c3_truncation_behavior_witness :
    ((([1, 2] : List Nat).length : Int) ≤ payloadLen 5 0) ∧
    parseRun [5, 0, 200, 1, 2] initStore = applyCommand 200 [1, 2] initStore :=
  ⟨by decide, (c3_truncation_behavior 5 0 200 [1, 2] initStore).2.2.2 (by decide)⟩

/-! ## C10 -/

/-- C10: a record whose `u16` size field is 0 yields the payload length
`0 - 1 = -1`; `fh.read(-1)` consumes the entire remainder of the stream
as this record's payload, so every following record is swallowed
undispatched and the loop then terminates as at clean EOF (the run
reduces to dispatching this single record on the whole remainder). -/
theorem c10_zero_size_swallows_rest (c : Nat) (r : List Nat) (st : Store) :
    payloadLen 0 0 = -1 ∧
    readBytes (payloadLen 0 0) r = (r, []) ∧
    parseRun (0 :: 0 :: c :: r) st = applyCommand c r st := by
  have h1 : payloadLen 0 0 = -1 := by decide
  have h2 : readBytes (payloadLen 0 0) r = (r, []) := by
    rw [h1]
    unfold readBytes
    rw [if_pos (by norm_num)]
  exact ⟨h1, h2, parseRun_last 0 0 c r st h2⟩

end OTT

namespace OTT

/-! ## C4 -/

/-- SNSS v1 log: `SetTabGroup(tab=1, high=1, low=35)` then
`SetTabGroupMetadata2(high=18, low=3, name=[87])`.  The two (high, low)
pairs are distinct, but their unpadded concatenated hex keys coincide
("1" ++ "23" = "12" ++ "3"). -/
def exLogGroupCollision : List Nat :=
  [83, 78, 83, 83, 1, 0, 0, 0] ++
  [25, 0, 25, 1, 0, 0, 0, 0, 0, 0, 0,
    1, 0, 0, 0, 0, 0, 0, 0, 35, 0, 0, 0, 0, 0, 0, 0] ++
  [29, 0, 27, 0, 0, 0, 0,
    18, 0, 0, 0, 0, 0, 0, 0, 3, 0, 0, 0, 0, 0, 0, 0,
    1, 0, 0, 0, 87, 0, 0, 0]

/-- C4 (counterexample): the claim says distinct (high, low) pairs
resolve to distinct Group entities.  The pairs (1, 35) and (18, 3) are
distinct yet share the lookup key, so naming the group (18, 3) renames
the group bound to tab 1 via (1, 35): the tab's materialized group name
becomes the one set through the other pair. -/
theorem c4_distinct_pairs_same_group :
    groupKey 1 35 = groupKey 18 3 ∧
    ((1, 35) : Nat × Nat) ≠ (18, 3) ∧
    (parse exLogGroupCollision).toOption.map
        (fun r => r.windows.map (fun w => w.tabs.map (fun t => t.group)))
      = some [[[87]]] := by
  refine ⟨by decide, by decide, by decide⟩

/-- C4 (amended): group resolution is keyed by the *concatenated
unpadded lowercase hex* of (high, low): two `get_group` references
resolve to the same entity exactly when their concatenated hex keys are
equal — equal pairs always do, but distinct pairs may collide. -/
theorem c4_group_identity_is_hex_key
    (gs : List (List Nat × Group)) (hwf : WFGroups gs) (h1 l1 h2 l2 : Nat) :
    (getGroup (getGroup gs h1 l1).2 h2 l2).1 = (getGroup gs h1 l1).1
      ↔ groupKey h1 l1 = groupKey h2 l2 := by
  constructor
  · intro heq
    have hwf1 : WFGroups (getGroup gs h1 l1).2 := getGroup_wf gs h1 l1 hwf
    have hk1 : groupKey (getGroup gs h1 l1).1.high (getGroup gs h1 l1).1.low
        = groupKey h1 l1 := getGroup_key gs h1 l1 hwf
    have hk2 : groupKey (getGroup (getGroup gs h1 l1).2 h2 l2).1.high
          (getGroup (getGroup gs h1 l1).2 h2 l2).1.low
        = groupKey h2 l2 := getGroup_key _ h2 l2 hwf1
    rw [heq, hk1] at hk2
    exact hk2
  · intro hkeq
    have hsel : ((getGroup gs h1 l1).2).lookup (groupKey h2 l2)
        = some (getGroup gs h1 l1).1 := by
      rw [← hkeq]
      exact getGroup_lookup_self gs h1 l1
    exact getGroup_fst_of_lookup _ h2 l2 _ hsel

/-- C4 witness: on the empty table, the references (1, 35) and (18, 3)
resolve to the same entity because their hex keys coincide. -/
theorem c4_group_identity_is_hex_key_witness :
    (getGroup (getGroup [] 1 35).2 18 3).1 = (getGroup [] 1 35).1 :=
  (c4_group_identity_is_hex_key [] (fun p hp => absurd hp (List.not_mem_nil p))
    1 35 18 3).mpr (by decide)

/-! ## C5 -/

/-- The record bytes of `TabClosed(tab=7)` then
`SetSelectedNavigationIndex(tab=3, idx=0)` (no header). -/
def bodyTieOrder : List Nat :=
  [5, 0, 16, 7, 0, 0, 0] ++ [9, 0, 7, 3, 0, 0, 0, 0, 0, 0, 0]

/-- The replay state after `bodyTieOrder`: tab 7 (deleted) first, then
tab 3, both with `idx = 0` and `win = 0`. -/
def stTieOrder : Store :=
  { tabs := [(7, { id := 7, history := [], deleted := true }),
             (3, { id := 3, history := [] })],
    windows := [], groups := [], active_window := none }

/-- C5 (counterexample): the claim says equal `tab.idx` is tie-broken by
tab id ascending.  Replaying `bodyTieOrder` puts tab 7 before tab 3 in
the tabs dict; both have `idx = 0`, and the stable sort keeps 7 before 3
in the materialized window — not id-ascending order. -/
theorem c5_ties_not_broken_by_id :
    parseRun bodyTieOrder initStore = .ok stTieOrder ∧
    (materializeWindowTabs (sortHistTabs stTieOrder.tabs) 0).map
        (fun t => (t.id, t.idx)) = [(7, 0), (3, 0)] ∧
    ¬ List.Pairwise
        (fun a b : Tab => a.idx < b.idx ∨ (a.idx = b.idx ∧ a.id ≤ b.id))
        (materializeWindowTabs (sortHistTabs stTieOrder.tabs) 0) := by
  refine ⟨by rfl, by decide, by decide⟩

/-- C5 (amended): each window's materialized tab list is sorted
(weakly) ascending by `tab.idx`, and tabs with equal `idx` keep their
relative order from the tabs table (first-reference order) — the sort is
stable, not id-tie-broken. -/
theorem c5_sorted_by_idx_stable (tabs' : List (Nat × Tab)) (wid : Nat) :
    List.Pairwise (fun a b : Tab => a.idx ≤ b.idx)
        (materializeWindowTabs tabs' wid) ∧
    ∀ k : Nat,
      (materializeWindowTabs tabs' wid).filter (fun t => t.idx == k)
        = ((tabs'.filter (fun q => q.2.win == wid)).map Prod.snd).filter
            (fun t => t.idx == k) := by
  constructor
  · exact pairwise_sortByKey Tab.idx _
  · intro k
    exact filter_sortByKey Tab.idx k _

/-! ## C6 -/

/-- C6 (counterexample): the claim says the `string` primitive fails
with `TruncatedField` whenever the buffer cannot supply the required
bytes.  Here the declared size is 8 but only 2 payload bytes exist, and
`read_string` succeeds, silently returning the truncated string. -/
theorem c6_short_string_not_an_error :
    rdString [8, 0, 0, 0, 65, 66] = .ok ([65, 66], []) := by rfl

/-- C6 (amended): `read_string` fails only when the 4-byte size prefix
itself cannot be read (or the retained bytes are not valid UTF-8); when
the buffer holds fewer than the declared aligned payload bytes, the read
is silently truncated to the available bytes and consumes them all. -/
theorem c6_read_string_truncation (l : List Nat) :
    (l.length < 4 → rdString l = .error .structError) ∧
    (∀ size rest, rdU32 l = .ok (size, rest) → rest.length < alignSize size →
      rdString l = (match utf8Decode (rest.take size) with
                    | some cps => .ok (cps, ([] : List Nat))
                    | none => .error .decodeError)) := by
  constructor
  · intro h
    rcases l with _ | ⟨a, _ | ⟨b, _ | ⟨c, _ | ⟨d, l⟩⟩⟩⟩
    · rfl
    · rfl
    · rfl
    · rfl
    · simp at h; omega
  · intro size rest hu hlt
    have htk : rest.take (alignSize size) = rest :=
      List.take_of_length_le (by omega)
    have hdr : rest.drop (alignSize size) = [] :=
      List.drop_eq_nil_of_le (by omega)
    have hstep : rdString l =
        (match utf8Decode ((rest.take (alignSize size)).take size) with
         | some cps => .ok (cps, rest.drop (alignSize size))
         | none => .error .decodeError) := by
      unfold rdString
      rw [hu]
    rw [hstep, htk, hdr]

/-- C6 witness: declared size 5 (aligned to 8) with 2 bytes available. -/
theorem c6_read_string_truncation_witness :
    ((2 : Nat) < alignSize 5) ∧
    rdString [5, 0, 0, 0, 72, 73] = .ok ([72, 73], []) := by
  refine ⟨by decide, ?_⟩
  have h := (c6_read_string_truncation [5, 0, 0, 0, 72, 73]).2 5 [72, 73]
    rfl (by decide)
  exact h

end OTT

namespace OTT

/-! ## C7 -/

/-- C7: a materialized tab's history is the index-sorted history emitted
up to and including the (first) entry whose index equals
`current_history_idx`, whose url and title become the tab's top-level
url and title; when no entry matches, the whole sorted history is
emitted and url and title are empty. -/
theorem c7_history_emitted_up_to_current
    (t : Tab) (groups : List (List Nat × Group)) (act : Bool) :
    List.Pairwise (fun a b : HistoryItem => a.idx ≤ b.idx)
        (sortByKey HistoryItem.idx t.history) ∧
    (mkResultTab groups act
        { t with history := sortByKey HistoryItem.idx t.history }).history
      = specEmittedHistory (sortByKey HistoryItem.idx t.history)
          t.current_history_idx ∧
    (mkResultTab groups act
        { t with history := sortByKey HistoryItem.idx t.history }).url
      = (specCurrentEntry (sortByKey HistoryItem.idx t.history)
          t.current_history_idx).1 ∧
    (mkResultTab groups act
        { t with history := sortByKey HistoryItem.idx t.history }).title
      = (specCurrentEntry (sortByKey HistoryItem.idx t.history)
          t.current_history_idx).2 := by
  have h := emitHistory_eq_spec (sortByKey HistoryItem.idx t.history)
    t.current_history_idx
  refine ⟨pairwise_sortByKey HistoryItem.idx t.history, ?_, ?_, ?_⟩
  · show (emitHistory (sortByKey HistoryItem.idx t.history)
      t.current_history_idx).1 = _
    rw [h]
  · show (emitHistory (sortByKey HistoryItem.idx t.history)
      t.current_history_idx).2.1 = _
    rw [h]
  · show (emitHistory (sortByKey HistoryItem.idx t.history)
      t.current_history_idx).2.2 = _
    rw [h]

/-! ## C8 -/

/-- C8: the downstream tab count is the sum, over non-deleted result
windows, of the number of non-deleted result tabs; any fatal error on
the session-discovery or parse path reports zero. -/
theorem c8_tab_count_contract (s : Except Err Result) :
    (∀ r, s = .ok r → chromeTabCount s
        = ((r.windows.filter (fun w => !w.deleted)).map
            (fun w => (w.tabs.filter (fun t => !t.deleted)).length)).sum) ∧
    (∀ e, s = .error e → chromeTabCount s = 0) := by
  constructor
  · intro r hr
    subst hr
    exact countLoop_eq r
  · intro e he
    subst he
    rfl

/-- C8 witness: the empty SNSS v1 log counts zero tabs, and a failed
parse counts zero tabs. -/
theorem c8_tab_count_contract_witness :
    chromeTabCount (parse [83, 78, 83, 83, 1, 0, 0, 0]) = 0 ∧
    chromeTabCount (.error .badMagic) = 0 := by
  constructor
  · exact (c8_tab_count_contract (parse [83, 78, 83, 83, 1, 0, 0, 0])).1
      ⟨[]⟩ (by rfl)
  · exact (c8_tab_count_contract (.error .badMagic)).2 .badMagic rfl

/-! ## C9 -/

/-- C9: inserting a well-formed record with the unrecognized opcode 200
and arbitrary payload at any record boundary after the header yields the
same parse outcome as the log without that record. -/
theorem c9_unknown_opcode_tolerance
    (v : Nat) (hv : v = 1 ∨ v = 3) (pre payload post : List Nat)
    (hpre : RecordSeq pre) (_hlen : payload.length ≤ 65534) :
    parse (snssMagic ++ [v, 0, 0, 0] ++ (pre ++ (encRecord 200 payload ++ post)))
      = parse (snssMagic ++ [v, 0, 0, 0] ++ (pre ++ post)) := by
  have hbody : ∀ x : List Nat,
      parse (snssMagic ++ [v, 0, 0, 0] ++ x)
        = match parseRun x initStore with
          | .error e => .error e
          | .ok st => .ok (materialize st) := by
    intro x
    unfold parse
    have htake : (snssMagic ++ [v, 0, 0, 0] ++ x).take 4 = snssMagic := by
      simp [snssMagic]
    have hdrop : (snssMagic ++ [v, 0, 0, 0] ++ x).drop 4
        = v :: 0 :: 0 :: 0 :: x := by
      simp [snssMagic]
    rw [htake, hdrop, if_neg (fun hc => hc rfl)]
    have hr : rdU32 (v :: 0 :: 0 :: 0 :: x) = .ok (v, x) := by
      simp [rdU32]
    rw [hr]
    dsimp only
    rw [if_pos hv]
  rw [hbody, hbody]
  rw [parseRun_append_recordSeq hpre, parseRun_append_recordSeq hpre]
  cases parseRun pre initStore with
  | error e => rfl
  | ok st' =>
    dsimp only
    rw [parseRun_record, applyCommand_unknown]

/-- C9 witness: injecting an empty-payload opcode-200 record into the
empty v1 log leaves the (empty) result unchanged. -/
theorem c9_unknown_opcode_tolerance_witness :
    parse (snssMagic ++ [1, 0, 0, 0] ++ ([] ++ (encRecord 200 [] ++ [])))
      = .ok ⟨[]⟩ :=
  (c9_unknown_opcode_tolerance 1 (Or.inl rfl) [] [] [] RecordSeq.nil
    (by decide)).trans (by rfl)

end OTT
